import Mathlib

/-!
Shallow embedding of the "Thermal Hypernova" game engine
(`src/game/GameEngine.ts`).

Positions, velocities, times, energy and scores are modelled as rationals
(`ℚ`): the source computes over IEEE doubles, and all claims are stated in
the idealized real arithmetic the spec uses.  `Math.hypot(dx, dy) < s` is
embedded by comparing squares (`dx^2 + dy^2 < s^2` guarded by `0 < s`),
which is equivalent over the reals since both sides are nonnegative.

`Math.random()` draws, and the trigonometric expressions computed from
them (`cos/sin/atan2` in the `Particle` and `Enemy` constructors), are
irrational in general, so every random draw — and each derived
velocity/size/position — is passed in as an explicit oracle parameter
(`PRand`, `EnemyRand`, `FrameRand`): the embedding is deterministic in
the oracle, exactly as the source is deterministic in its stream of
`Math.random()` results.

Host callbacks (`onStatsUpdate`, `onGameOver`) are modelled as outputs:
`GameEngine.update` returns, next to the new engine state, the list of
scores passed to `onGameOver` (in call order) and the stats snapshot
passed to `onStatsUpdate`, if any.
-/

set_option maxRecDepth 100000

/-- The `GameState` union type: `'MENU' | 'PLAYING' | 'GAME_OVER'`. -/
inductive GameState where
  | menu
  | playing
  | gameOver
deriving DecidableEq

/-- The `GameStats` interface: score, energy, maxEnergy, level. -/
structure GameStats where
  score : ℚ
  energy : ℚ
  maxEnergy : ℚ
  level : ℚ
deriving DecidableEq

/-- The `Entity` base class: position, radius, velocity, color and the
deletion flag (initialised `false` by the constructor). -/
structure Entity where
  x : ℚ
  y : ℚ
  radius : ℚ
  vx : ℚ
  vy : ℚ
  color : String
  markedForDeletion : Bool
deriving DecidableEq

/-- The method `Entity.update(dt)`: `x += vx * dt; y += vy * dt`. -/
def Entity.update (e : Entity) (dt : ℚ) : Entity :=
  { e with x := e.x + e.vx * dt, y := e.y + e.vy * dt }

/-- Kind tag distinguishing the two non-player entity subclasses stored in
`GameEngine.entities`: `Enemy` (pursuer) and `Orb` (pickup).  The source
distinguishes them by `instanceof`; the tag is the standard embedding of
that runtime type test. -/
inductive EntKind where
  | enemy
  | orb
deriving DecidableEq

/-- A non-player entity as stored in `GameEngine.entities`: the `Entity`
fields plus the dynamic-type tag. -/
structure GEntity extends Entity where
  kind : EntKind
deriving DecidableEq

/-- The method `update(dt)` on a non-player entity: the inherited Euler step (neither
`Enemy` nor `Orb` overrides `update`). -/
def GEntity.update (e : GEntity) (dt : ℚ) : GEntity :=
  { e with toEntity := e.toEntity.update dt }

/-- The `Particle` subclass: inherited `Entity` fields plus `life`
(starts at `1.0`) and the per-instance `decay` rate. -/
structure Particle extends Entity where
  life : ℚ
  decay : ℚ
deriving DecidableEq

/-- The method `Particle.update(dt)`: `super.update(dt); life -= decay;
if (life <= 0) markedForDeletion = true`. -/
def Particle.update (p : Particle) (dt : ℚ) : Particle :=
  let p' : Particle := { p with toEntity := p.toEntity.update dt }
  let p'' : Particle := { p' with life := p'.life - p'.decay }
  if p''.life ≤ 0 then { p'' with markedForDeletion := true } else p''

/-- The `Player` subclass: inherited `Entity` fields plus the cosmetic
`angle`. -/
structure Player extends Entity where
  angle : ℚ
deriving DecidableEq

/-- The random draws consumed by one `Particle` constructor call:
`vx = cos(angle) * speed`, `vy = sin(angle) * speed` for a uniform random
`angle` and a randomized `speed`, the `size` passed as radius, and the
`decay = Math.random() * 0.02 + 0.01`.  The trigonometric products are
irrational in general, so the oracle supplies them directly. -/
structure PRand where
  vx : ℚ
  vy : ℚ
  size : ℚ
  decay : ℚ

/-- Constraint satisfied by every draw the source can produce:
`decay = Math.random() * 0.02 + 0.01` with `Math.random() ∈ [0, 1)`. -/
def PRand.valid (r : PRand) : Prop := 1/100 ≤ r.decay ∧ r.decay < 3/100

/-- The `Particle` constructor: position and color as given, radius =
`size`, velocity from the oracle, `life = 1.0`, `markedForDeletion =
false` (from the `Entity` constructor). -/
def mkParticle (x y : ℚ) (color : String) (r : PRand) : Particle :=
  { x := x, y := y, radius := r.size, vx := r.vx, vy := r.vy,
    color := color, markedForDeletion := false, life := 1, decay := r.decay }

/-- The color string constants used by the source. -/
def enemyColor : String := "#ff0055"

def orbColor : String := "#00ffaa"

def novaColor : String := "#00ffff"

/-- The random draws consumed by one `Enemy` constructor call: the
randomized radius, the edge spawn position, and the velocity
`(cos(angle) * speed, sin(angle) * speed)` aimed at the player. -/
structure EnemyRand where
  radius : ℚ
  x : ℚ
  y : ℚ
  vx : ℚ
  vy : ℚ

/-- The `Enemy` constructor, with the random-dependent fields supplied by
the oracle; `markedForDeletion = false` from the `Entity` constructor. -/
def mkEnemy (r : EnemyRand) : GEntity :=
  { x := r.x, y := r.y, radius := r.radius, vx := r.vx, vy := r.vy,
    color := enemyColor, markedForDeletion := false, kind := EntKind.enemy }

/-- The `Orb` constructor: random position inside the viewport (supplied
by the oracle), radius `5`, zero velocity. -/
def mkOrb (x y : ℚ) : GEntity :=
  { x := x, y := y, radius := 5, vx := 0, vy := 0,
    color := orbColor, markedForDeletion := false, kind := EntKind.orb }

/-- The test `Math.hypot(dx, dy) < s`, embedded over ℚ: equivalent to
`0 < s ∧ dx² + dy² < s²` since `hypot` is nonnegative and squaring is
monotone on nonnegatives. -/
def distLt (dx dy s : ℚ) : Bool := 0 < s ∧ dx * dx + dy * dy < s * s

/-- The engine state a frame reads and writes: dimensions, state machine
state, stats, the nullable player, the entity and particle containers,
the spawn timer, and the `isMobile` flag fixed at construction.  The
canvas, clock and listener fields play no role in the claims' semantics
and are omitted. -/
structure Engine where
  width : ℚ
  height : ℚ
  state : GameState
  stats : GameStats
  player : Option Player
  entities : List GEntity
  particles : List Particle
  spawnTimer : ℚ
  isMobile : Bool
deriving DecidableEq

/-- The method `createExplosion(x, y, color, count)`: pushes `count` particles
(halved, rounded up, on mobile) at `(x, y)`.  Returns the list pushed;
`start` indexes into the oracle stream so consecutive explosions consume
fresh draws. -/
def createExplosion (isMobile : Bool) (x y : ℚ) (color : String)
    (count : ℕ) (prand : ℕ → PRand) (start : ℕ) : List Particle :=
  let actualCount := if isMobile then (count + 1) / 2 else count
  (List.range actualCount).map (fun i => mkParticle x y color (prand (start + i)))

/-! ## `triggerHypernova` -/

/-- Whether an entity is in the hypernova blast: an `Enemy` at
`Math.hypot` distance `< 400` from the player. -/
def inBlast (px py : ℚ) (e : GEntity) : Bool :=
  e.kind = EntKind.enemy && distLt (e.x - px) (e.y - py) 400

/-- Accumulator for the `entities.forEach` pass inside
`triggerHypernova`: processed entities, score, particles pushed so far,
and the next free index into the particle-randomness stream. -/
structure NovaAcc where
  done : List GEntity
  score : ℚ
  parts : List Particle
  pIdx : ℕ
deriving DecidableEq

/-- One iteration of the `triggerHypernova` `forEach`: an `Enemy` within
`400` of the player is marked for deletion, a `10`-particle explosion is
pushed at its position, and the score is increased by `50`. -/
def novaStep (isMobile : Bool) (px py : ℚ) (prand : ℕ → PRand)
    (a : NovaAcc) (e : GEntity) : NovaAcc :=
  if inBlast px py e then
    let e' : GEntity := { e with markedForDeletion := true }
    let exp := createExplosion isMobile e.x e.y enemyColor 10 prand a.pIdx
    { done := a.done ++ [e'], score := a.score + 50,
      parts := a.parts ++ exp, pIdx := a.pIdx + exp.length }
  else
    { a with done := a.done ++ [e] }

/-- The method `GameEngine.triggerHypernova()`.  The success path returns
`Except.ok` with the new engine state.  `Except.error` models the one
way the source can throw: the body dereferences `this.player!` after the
energy guard, so reaching it with a null player raises a `TypeError` —
by then `this.stats.energy -= 30` has already executed, and the carried
error state records exactly that partial mutation.  The oracle `prand`
supplies the random draws of every particle constructed during the
call, in construction order. -/
def GameEngine.triggerHypernova (g : Engine) (prand : ℕ → PRand) :
    Except Engine Engine :=
  if 30 ≤ g.stats.energy then
    let g1 : Engine :=
      { g with stats := { g.stats with energy := g.stats.energy - 30 } }
    match g.player with
    | none => Except.error g1
    | some p =>
      let particleCount : ℕ := if g.isMobile then 25 else 50
      let burst := (List.range particleCount).map
        (fun i => mkParticle p.x p.y novaColor (prand i))
      let a := g.entities.foldl (novaStep g.isMobile p.x p.y prand)
        { done := [], score := g.stats.score, parts := [], pIdx := particleCount }
      Except.ok { g1 with
        stats := { g1.stats with score := a.score },
        entities := a.done,
        particles := g.particles ++ burst ++ a.parts }
  else
    Except.ok g

/-! ## `update` -/

/-- The spawn threshold `1.0 / (1 + level * 0.24)` at a given level. -/
def spawnThreshold (level : ℚ) : ℚ := 1 / (1 + level * (24/100))

/-- The per-frame randomness consumed by one `update(dt)` call: the
enemy-vs-orb roll, the draws of a prospective `Enemy` or `Orb`
constructor, and the stream of particle draws for the explosions
triggered by pickup collisions. -/
structure FrameRand where
  spawnRoll : ℚ
  enemy : EnemyRand
  orbX : ℚ
  orbY : ℚ
  prand : ℕ → PRand

/-- The entity spawned when the spawn timer fires: an `Enemy` when
`Math.random() < 0.7`, an `Orb` otherwise. -/
def spawnedEntity (g : Engine) (p : Player) (fr : FrameRand) : GEntity :=
  if fr.spawnRoll < 7/10 then mkEnemy fr.enemy else mkOrb fr.orbX fr.orbY

/-- Whether the spawn timer fires this frame:
`spawnTimer + dt > 1.0 / (1 + level * 0.24)`. -/
def spawnFires (g : Engine) (dt : ℚ) : Prop :=
  spawnThreshold g.stats.level < g.spawnTimer + dt

instance (g : Engine) (dt : ℚ) : Decidable (spawnFires g dt) :=
  inferInstanceAs (Decidable (spawnThreshold g.stats.level < g.spawnTimer + dt))

/-- The spawn timer after the spawning step: reset to `0` when it fires,
else keeping the accumulated value. -/
def spawnTimerAfter (g : Engine) (dt : ℚ) : ℚ :=
  if spawnFires g dt then 0 else g.spawnTimer + dt

/-- The entity list after the spawning step of `update(dt)`. -/
def entitiesAfterSpawn (g : Engine) (p : Player) (dt : ℚ) (fr : FrameRand) :
    List GEntity :=
  if spawnFires g dt then g.entities ++ [spawnedEntity g p fr] else g.entities

/-- Whether a (already moved) entity collides with the player:
`Math.hypot(e.x - player.x, e.y - player.y) < e.radius + player.radius`. -/
def collidesWith (p : Player) (e : GEntity) : Bool :=
  distLt (e.x - p.x) (e.y - p.y) (e.radius + p.radius)

/-- Whether an entity, after its Euler step, collides with the player —
the condition actually tested by the `forEach` body of `update`. -/
def hitsPlayer (p : Player) (dt : ℚ) (e : GEntity) : Bool :=
  collidesWith p (e.update dt)

/-- Accumulator of the entity `forEach` inside `update`: processed
entities, current stats and state, particles pushed by pickup
explosions, scores passed to `onGameOver` (in call order), and the next
free index into the particle-randomness stream. -/
structure EntAcc where
  done : List GEntity
  stats : GameStats
  state : GameState
  newParticles : List Particle
  goCalls : List ℚ
  pIdx : ℕ

/-- One iteration of the entity `forEach` in `update`: move the entity,
test collision with the player; a colliding `Enemy` sets the state to
`GAME_OVER` and calls `onGameOver(score)`; a colliding `Orb` is marked
for deletion, adds `10` score, adds `10` energy capped at `maxEnergy`,
and spawns a `5`-particle explosion at its position. -/
def procEntity (isMobile : Bool) (px py pr : ℚ) (dt : ℚ)
    (prand : ℕ → PRand) (a : EntAcc) (e : GEntity) : EntAcc :=
  if distLt ((e.update dt).x - px) ((e.update dt).y - py)
      ((e.update dt).radius + pr) then
    if (e.update dt).kind = EntKind.enemy then
      { a with done := a.done ++ [e.update dt], state := GameState.gameOver,
               goCalls := a.goCalls ++ [a.stats.score] }
    else if (e.update dt).kind = EntKind.orb then
      { done := a.done ++ [{ e.update dt with markedForDeletion := true }],
        stats := { a.stats with score := a.stats.score + 10, energy := min (a.stats.energy + 10) a.stats.maxEnergy },
        state := a.state,
        newParticles := a.newParticles
          ++ createExplosion isMobile (e.update dt).x (e.update dt).y
               orbColor 5 prand a.pIdx,
        goCalls := a.goCalls,
        pIdx := a.pIdx
          + (createExplosion isMobile (e.update dt).x (e.update dt).y
               orbColor 5 prand a.pIdx).length }
    else
      { a with done := a.done ++ [e.update dt] }
  else
    { a with done := a.done ++ [e.update dt] }

/-- The accumulator the entity `forEach` starts from: nothing processed,
the engine's current stats and state, no particles pushed, no
`onGameOver` calls, particle-randomness stream at index `0`. -/
def initAcc (g : Engine) : EntAcc :=
  { done := [], stats := g.stats, state := g.state,
    newParticles := [], goCalls := [], pIdx := 0 }

/-- The whole entity move/collision pass of `update(dt)`: the `forEach`
over the (post-spawn) entity list, folding `procEntity` from the
engine's current stats and state. -/
def entityPass (g : Engine) (p : Player) (dt : ℚ) (fr : FrameRand) : EntAcc :=
  (entitiesAfterSpawn g p dt fr).foldl
    (procEntity g.isMobile p.x p.y p.radius dt fr.prand) (initAcc g)

/-- The level formula applied at the end of every frame:
`1 + Math.floor(score / 500)`. -/
def levelOf (score : ℚ) : ℚ := 1 + (⌊score / 500⌋ : ℤ)

/-- The result of one `update(dt)` call: the new engine state, the list
of scores passed to `onGameOver` (one element per invocation, in call
order), and the stats snapshot passed to `onStatsUpdate` (none when the
call returned early). -/
structure UpdateOut where
  engine : Engine
  gameOverCalls : List ℚ
  emitted : Option GameStats
deriving DecidableEq

/-- The method `GameEngine.update(dt)`: early return when `player` is null; then
player cosmetic rotation, spawning, the entity move/collision pass, the
particle pass (new particles pushed by this frame's explosions are
updated too, as in the source where they are already in `this.particles`
when `particles.forEach` runs), cleanup of marked/off-screen entities
and dead particles, energy decay floored at `0`, level recomputation,
and the stats emission. -/
def GameEngine.update (g : Engine) (dt : ℚ) (fr : FrameRand) : UpdateOut :=
  match g.player with
  | none => { engine := g, gameOverCalls := [], emitted := none }
  | some p0 =>
    let p : Player := { p0 with angle := p0.angle + 5 * dt }
    let a := entityPass g p0 dt fr
    let parts1 := (g.particles ++ a.newParticles).map (fun q => q.update dt)
    let entsClean := a.done.filter (fun e =>
      !e.markedForDeletion &&
      -100 < e.x && e.x < g.width + 100 && -100 < e.y && e.y < g.height + 100)
    let partsClean := parts1.filter (fun q => !q.markedForDeletion)
    let stats2 : GameStats :=
      { a.stats with energy := max 0 (a.stats.energy - 2 * dt),
                     level := levelOf a.stats.score }
    let g' : Engine :=
      { g with state := a.state, stats := stats2, player := some p,
               entities := entsClean, particles := partsClean,
               spawnTimer := spawnTimerAfter g dt }
    { engine := g', gameOverCalls := a.goCalls, emitted := some stats2 }

/-! ## Basic projection lemmas -/

theorem GEntity.update_kind (e : GEntity) (dt : ℚ) : (e.update dt).kind = e.kind := rfl

theorem GEntity.update_radius (e : GEntity) (dt : ℚ) : (e.update dt).radius = e.radius := rfl

theorem GEntity.update_marked (e : GEntity) (dt : ℚ) :
    (e.update dt).markedForDeletion = e.markedForDeletion := rfl

theorem GEntity.update_x (e : GEntity) (dt : ℚ) : (e.update dt).x = e.x + e.vx * dt := rfl

theorem GEntity.update_y (e : GEntity) (dt : ℚ) : (e.update dt).y = e.y + e.vy * dt := rfl

theorem createExplosion_length (m : Bool) (x y : ℚ) (c : String) (n : ℕ)
    (pr : ℕ → PRand) (s : ℕ) :
    (createExplosion m x y c n pr s).length = if m then (n + 1) / 2 else n := by
  unfold createExplosion
  by_cases h : m <;> simp [h]

theorem createExplosion_mem (m : Bool) (x y : ℚ) (c : String) (n : ℕ)
    (pr : ℕ → PRand) (s : ℕ) (q : Particle) (hq : q ∈ createExplosion m x y c n pr s) :
    q.x = x ∧ q.y = y ∧ q.life = 1 ∧ q.markedForDeletion = false ∧ q.color = c := by
  unfold createExplosion at hq
  simp only [List.mem_map, List.mem_range] at hq
  obtain ⟨i, _, rfl⟩ := hq
  exact ⟨rfl, rfl, rfl, rfl, rfl⟩

/-! ## Concrete fixtures used by witnesses and counterexamples -/

/-- A fixed particle-constructor draw (`decay = 0.01`). -/
def zeroDraw : PRand := { vx := 0, vy := 0, size := 1, decay := 1/100 }

/-- A player at `(100, 100)`, as built by `new Player(100, 100)`. -/
def cPlayer : Player :=
  { x := 100, y := 100, radius := 15, vx := 0, vy := 0, color := "#fff",
    markedForDeletion := false, angle := 0 }

/-- A stationary pursuer at a given position (radius `10`, in the range
of the `Enemy` constructor). -/
def cEnemyAt (x y : ℚ) : GEntity :=
  { x := x, y := y, radius := 10, vx := 0, vy := 0, color := enemyColor,
    markedForDeletion := false, kind := EntKind.enemy }

/-- A pickup at a given position, as built by the `Orb` constructor. -/
def cOrbAt (x y : ℚ) : GEntity :=
  { x := x, y := y, radius := 5, vx := 0, vy := 0, color := orbColor,
    markedForDeletion := false, kind := EntKind.orb }

/-- A frame-randomness oracle whose spawn roll (`0.9`) selects an `Orb`
when a spawn fires. -/
def cFR : FrameRand :=
  { spawnRoll := 9/10, enemy := { radius := 10, x := 0, y := 0, vx := 0, vy := 0 },
    orbX := 0, orbY := 0, prand := fun _ => zeroDraw }

/-- The stats the engine starts a run with. -/
def cStats : GameStats := { score := 0, energy := 200, maxEnergy := 200, level := 1 }

/-- A playing engine with a player and no entities. -/
def cEngine : Engine :=
  { width := 800, height := 600, state := GameState.playing, stats := cStats,
    player := some cPlayer, entities := [], particles := [],
    spawnTimer := 0, isMobile := false }

/-! ## C7: Entity position integration -/

/-- C7: for every entity and every `dt ≥ 0`, `Entity.update(dt)` sets the
position to the old position plus `velocity × dt` on each axis, and
leaves every other field (velocity, radius, color, deletion flag)
unchanged. -/
theorem entity_update_euler (e : Entity) (dt : ℚ) (h : 0 ≤ dt) :
    (e.update dt).x = e.x + e.vx * dt ∧
    (e.update dt).y = e.y + e.vy * dt ∧
    (e.update dt).vx = e.vx ∧
    (e.update dt).vy = e.vy ∧
    (e.update dt).radius = e.radius ∧
    (e.update dt).color = e.color ∧
    (e.update dt).markedForDeletion = e.markedForDeletion := by
  exact ⟨rfl, rfl, rfl, rfl, rfl, rfl, rfl⟩

/-- C7 witness: the Euler step evaluated on a concrete entity and
`dt = 2`. -/
theorem entity_update_euler_witness :
    (Entity.update cPlayer.toEntity 2).x
        = cPlayer.toEntity.x + cPlayer.toEntity.vx * 2 ∧
    (Entity.update cPlayer.toEntity 2).y
        = cPlayer.toEntity.y + cPlayer.toEntity.vy * 2 ∧
    (Entity.update cPlayer.toEntity 2).vx = cPlayer.toEntity.vx ∧
    (Entity.update cPlayer.toEntity 2).vy = cPlayer.toEntity.vy ∧
    (Entity.update cPlayer.toEntity 2).radius = cPlayer.toEntity.radius ∧
    (Entity.update cPlayer.toEntity 2).color = cPlayer.toEntity.color ∧
    (Entity.update cPlayer.toEntity 2).markedForDeletion
        = cPlayer.toEntity.markedForDeletion :=
  entity_update_euler cPlayer.toEntity 2 (by norm_num)

/-! ## C10: update with a null player is a no-op -/

/-- C10: when the engine has no player, `update(dt)` returns immediately:
the engine state (stats, spawn timer, entity and particle lists, state
machine state) is unchanged, no `onGameOver` call is made, and no stats
snapshot is emitted. -/
theorem update_null_player (g : Engine) (dt : ℚ) (fr : FrameRand)
    (hp : g.player = none) :
    GameEngine.update g dt fr
      = { engine := g, gameOverCalls := [], emitted := none } := by
  unfold GameEngine.update
  rw [hp]

/-- C10 witness: evaluated on a concrete playerless engine. -/
theorem update_null_player_witness :
    GameEngine.update { cEngine with player := none } 1 cFR
      = { engine := { cEngine with player := none },
          gameOverCalls := [], emitted := none } :=
  update_null_player { cEngine with player := none } 1 cFR rfl

/-! ## C3: hypernova without enough energy is a no-op -/

/-- C3: with `energy < 30`, `triggerHypernova` returns normally and
leaves the whole engine state unchanged — no energy deduction, no
particles spawned, no pursuer marked, score unchanged. -/
theorem hypernova_insufficient_energy (g : Engine) (pr : ℕ → PRand)
    (h : g.stats.energy < 30) :
    GameEngine.triggerHypernova g pr = Except.ok g := by
  unfold GameEngine.triggerHypernova
  rw [if_neg (not_le.mpr h)]

/-- C3 witness: the spec's scenario — `energy = 20`, cost `30`; the
engine state is untouched. -/
theorem hypernova_insufficient_energy_witness :
    GameEngine.triggerHypernova
        { cEngine with stats := { cStats with energy := 20 } } (fun _ => zeroDraw)
      = Except.ok { cEngine with stats := { cStats with energy := 20 } } :=
  hypernova_insufficient_energy
    { cEngine with stats := { cStats with energy := 20 } } (fun _ => zeroDraw)
    (by norm_num [cStats])

/-! ## C6: level formula at every stats emission -/

/-- C6: whenever `update` emits a stats snapshot, the emitted level is
`1 + floor(score / 500)` of the emitted (non-negative) score. -/
theorem emitted_level_formula (g : Engine) (dt : ℚ) (fr : FrameRand)
    (s : GameStats) (hs : (GameEngine.update g dt fr).emitted = some s)
    (hnn : 0 ≤ s.score) :
    s.level = 1 + (⌊s.score / 500⌋ : ℤ) := by
  unfold GameEngine.update at hs
  cases hp : g.player with
  | none => rw [hp] at hs; exact absurd hs (by simp)
  | some p0 =>
    rw [hp] at hs
    simp only [Option.some.injEq] at hs
    have hlev : s.level = levelOf (entityPass g p0 dt fr).stats.score := by
      rw [← hs]
    have hsc : s.score = (entityPass g p0 dt fr).stats.score := by
      rw [← hs]
    rw [hlev, hsc, levelOf]

/-- A concrete engine whose score is `1234`. -/
def c6Engine : Engine := { cEngine with stats := { cStats with score := 1234 } }

/-- The snapshot `update(1)` emits from `c6Engine`. -/
def c6Stats : GameStats := { score := 1234, energy := 198, maxEnergy := 200, level := 3 }

/-- C6 witness: the snapshot emitted from a concrete engine whose score
is `1234` satisfies the level formula (`level = 3`). -/
theorem emitted_level_formula_witness :
    c6Stats.level = 1 + (⌊c6Stats.score / 500⌋ : ℤ) :=
  emitted_level_formula c6Engine 1 cFR c6Stats (by with_unfolding_all decide) (by norm_num [c6Stats])

/-! ## C2: hypernova success path -/

/-- What the hypernova `forEach` does to each entity in place: an
`Enemy` within the blast radius is marked for deletion, everything else
is untouched. -/
def novaMark (px py : ℚ) (e : GEntity) : GEntity :=
  if inBlast px py e then { e with markedForDeletion := true } else e

/-- The hypernova entity pass, characterised: the processed list is the
input list with blast-radius enemies marked, and the score grows by `50`
per entity in the blast. -/
theorem novaFold_spec (m : Bool) (px py : ℚ) (pr : ℕ → PRand)
    (l : List GEntity) : ∀ a : NovaAcc,
    (l.foldl (novaStep m px py pr) a).done = a.done ++ l.map (novaMark px py) ∧
    (l.foldl (novaStep m px py pr) a).score
        = a.score + 50 * (l.countP (inBlast px py) : ℚ) := by
  induction l with
  | nil => intro a; simp
  | cons e l ih =>
    intro a
    simp only [List.foldl_cons, List.map_cons, List.countP_cons]
    obtain ⟨h1, h2⟩ := ih (novaStep m px py pr a e)
    by_cases hb : inBlast px py e
    · constructor
      · rw [h1]
        simp [novaStep, hb, novaMark]
      · rw [h2]
        simp only [novaStep, hb, if_true]
        push_cast
        ring
    · constructor
      · rw [h1]
        simp [novaStep, hb, novaMark]
      · rw [h2]
        simp [novaStep, hb]

/-- C2: with a player present and `energy ≥ 30`, `triggerHypernova`
succeeds, deducts exactly `30` energy, marks for deletion every pursuer
whose distance to the player is below the blast radius `400` (leaving
all other entities untouched), and raises the score by `50` per pursuer
so destroyed. -/
theorem hypernova_success (g : Engine) (p : Player) (pr : ℕ → PRand)
    (hp : g.player = some p) (he : 30 ≤ g.stats.energy) :
    ∃ g', GameEngine.triggerHypernova g pr = Except.ok g' ∧
      g'.stats.energy = g.stats.energy - 30 ∧
      g'.stats.maxEnergy = g.stats.maxEnergy ∧
      g'.entities = g.entities.map (novaMark p.x p.y) ∧
      g'.stats.score
          = g.stats.score + 50 * (g.entities.countP (inBlast p.x p.y) : ℚ) := by
  unfold GameEngine.triggerHypernova
  rw [if_pos he, hp]
  obtain ⟨h1, h2⟩ := novaFold_spec g.isMobile p.x p.y pr g.entities
    { done := [], score := g.stats.score, parts := [],
      pIdx := if g.isMobile then 25 else 50 }
  refine ⟨_, rfl, rfl, rfl, ?_, ?_⟩
  · rw [h1]; simp
  · rw [h2]

/-- C2 witness: a concrete engine with two pursuers, one inside and one
outside the blast radius — energy drops from `200` to `170`, the close
pursuer is marked, the far one untouched, score rises by `50`. -/
theorem hypernova_success_witness :
    ∃ g', GameEngine.triggerHypernova
        { cEngine with entities := [cEnemyAt 150 100, cEnemyAt 9999 9999] }
        (fun _ => zeroDraw) = Except.ok g' ∧
      g'.stats.energy
          = { cEngine with
              entities := [cEnemyAt 150 100, cEnemyAt 9999 9999] }.stats.energy - 30 ∧
      g'.stats.maxEnergy
          = { cEngine with
              entities := [cEnemyAt 150 100, cEnemyAt 9999 9999] }.stats.maxEnergy ∧
      g'.entities
          = [cEnemyAt 150 100, cEnemyAt 9999 9999].map (novaMark cPlayer.x cPlayer.y) ∧
      g'.stats.score
          = { cEngine with
              entities := [cEnemyAt 150 100, cEnemyAt 9999 9999] }.stats.score
            + 50 * ([cEnemyAt 150 100, cEnemyAt 9999 9999].countP
                (inBlast cPlayer.x cPlayer.y) : ℚ) :=
  hypernova_success
    { cEngine with entities := [cEnemyAt 150 100, cEnemyAt 9999 9999] }
    cPlayer (fun _ => zeroDraw) rfl (by norm_num [cEngine, cStats])

/-! ## C8: spawner behaviour -/

/-- C8: each `update` call adds `dt` to the spawn timer; a spawn fires
exactly when the incremented timer exceeds `1 / (1 + level × 0.24)`, in
which case the timer is reset to `0` (the excess discarded) and exactly
one entity is appended — an `Enemy` when the uniform roll is `< 0.7`,
an `Orb` otherwise; when the threshold is not exceeded the timer keeps
the accumulated value and the entity list is untouched. -/
theorem spawner_behaviour (g : Engine) (p : Player) (dt : ℚ) (fr : FrameRand)
    (hp : g.player = some p) :
    ((GameEngine.update g dt fr).engine.spawnTimer = spawnTimerAfter g dt) ∧
    (spawnFires g dt ↔ spawnThreshold g.stats.level < g.spawnTimer + dt) ∧
    (spawnFires g dt →
        spawnTimerAfter g dt = 0 ∧
        entitiesAfterSpawn g p dt fr = g.entities ++ [spawnedEntity g p fr] ∧
        (fr.spawnRoll < 7/10 → (spawnedEntity g p fr).kind = EntKind.enemy) ∧
        (¬ fr.spawnRoll < 7/10 → (spawnedEntity g p fr).kind = EntKind.orb)) ∧
    (¬ spawnFires g dt →
        spawnTimerAfter g dt = g.spawnTimer + dt ∧
        entitiesAfterSpawn g p dt fr = g.entities) := by
  refine ⟨?_, Iff.rfl, ?_, ?_⟩
  · unfold GameEngine.update
    rw [hp]
  · intro hf
    refine ⟨?_, ?_, ?_, ?_⟩
    · unfold spawnTimerAfter; rw [if_pos hf]
    · unfold entitiesAfterSpawn; rw [if_pos hf]
    · intro hr; unfold spawnedEntity; rw [if_pos hr]; rfl
    · intro hr; unfold spawnedEntity; rw [if_neg hr]; rfl
  · intro hf
    constructor
    · unfold spawnTimerAfter; rw [if_neg hf]
    · unfold entitiesAfterSpawn; rw [if_neg hf]

/-- C8 witness: the spec scenario — timer `0`, level `1`, `dt = 5`
(threshold `25/31 ≈ 0.806`): the spawn fires, the timer resets to `0`,
and the roll `0.9` appends an `Orb`. -/
theorem spawner_behaviour_witness :
    ((GameEngine.update cEngine 5 cFR).engine.spawnTimer = spawnTimerAfter cEngine 5) ∧
    (spawnFires cEngine 5 ↔ spawnThreshold cEngine.stats.level < cEngine.spawnTimer + 5) ∧
    (spawnFires cEngine 5 →
        spawnTimerAfter cEngine 5 = 0 ∧
        entitiesAfterSpawn cEngine cPlayer 5 cFR
            = cEngine.entities ++ [spawnedEntity cEngine cPlayer cFR] ∧
        (cFR.spawnRoll < 7/10 → (spawnedEntity cEngine cPlayer cFR).kind = EntKind.enemy) ∧
        (¬ cFR.spawnRoll < 7/10 → (spawnedEntity cEngine cPlayer cFR).kind = EntKind.orb)) ∧
    (¬ spawnFires cEngine 5 →
        spawnTimerAfter cEngine 5 = cEngine.spawnTimer + 5 ∧
        entitiesAfterSpawn cEngine cPlayer 5 cFR = cEngine.entities) :=
  spawner_behaviour cEngine cPlayer 5 cFR rfl

/-! ## C9: particle life and pruning -/

/-- C9: for a particle with a positive decay rate (every particle the
source constructs has `decay ≥ 0.01`) whose deletion flag, if already
set, was set because its life had run out: one `update` call with
`dt > 0` strictly decreases `life`; afterwards the flag is set exactly
when `life ≤ 0`; the flag is never cleared; and no particle surviving
an engine `update`'s cleanup pass has the flag set. -/
theorem particle_life_behaviour (q : Particle) (dt : ℚ) (g : Engine)
    (p : Player) (fr : FrameRand)
    (hd : 0 < q.decay) (hdt : 0 < dt)
    (hm : q.markedForDeletion = true → q.life ≤ 0)
    (hp : g.player = some p) :
    (q.update dt).life < q.life ∧
    ((q.update dt).markedForDeletion = true ↔ (q.update dt).life ≤ 0) ∧
    (q.markedForDeletion = true → (q.update dt).markedForDeletion = true) ∧
    (∀ r ∈ (GameEngine.update g dt fr).engine.particles,
        r.markedForDeletion = false) := by
  have hlife : (q.update dt).life = q.life - q.decay := by
    rw [Particle.update.eq_def]
    by_cases h : q.life - q.decay ≤ 0 <;> simp [h, Entity.update]
  have hmark : (q.update dt).markedForDeletion
      = (decide (q.life - q.decay ≤ 0) || q.markedForDeletion) := by
    rw [Particle.update.eq_def]
    by_cases h : q.life - q.decay ≤ 0 <;> simp [h, Entity.update]
  refine ⟨?_, ?_, ?_, ?_⟩
  · rw [hlife]; linarith
  · rw [hlife, hmark]
    constructor
    · intro h
      rcases Bool.or_eq_true_iff.mp h with h' | h'
      · exact of_decide_eq_true h'
      · have := hm h'
        linarith
    · intro h
      rw [decide_eq_true h, Bool.true_or]
  · intro h
    rw [hmark, h, Bool.or_true]
  · intro r hr
    unfold GameEngine.update at hr
    rw [hp] at hr
    simp only [List.mem_filter] at hr
    simpa using hr.2

/-- C9 witness: a freshly constructed particle (`life = 1`,
`decay = 0.01`) after one `update(1)` call, inside an engine with one
live particle. -/
theorem particle_life_behaviour_witness :
    ((mkParticle 0 0 novaColor zeroDraw).update 1).life
        < (mkParticle 0 0 novaColor zeroDraw).life ∧
    (((mkParticle 0 0 novaColor zeroDraw).update 1).markedForDeletion = true
        ↔ ((mkParticle 0 0 novaColor zeroDraw).update 1).life ≤ 0) ∧
    ((mkParticle 0 0 novaColor zeroDraw).markedForDeletion = true
        → ((mkParticle 0 0 novaColor zeroDraw).update 1).markedForDeletion = true) ∧
    (∀ r ∈ (GameEngine.update
        { cEngine with particles := [mkParticle 0 0 novaColor zeroDraw] }
        1 cFR).engine.particles, r.markedForDeletion = false) :=
  particle_life_behaviour (mkParticle 0 0 novaColor zeroDraw) 1
    { cEngine with particles := [mkParticle 0 0 novaColor zeroDraw] }
    cPlayer cFR (by norm_num [mkParticle, zeroDraw]) (by norm_num)
    (by intro h; exact absurd h (by with_unfolding_all decide)) rfl

/-! ## The entity pass, characterised -/

/-- Whether processing an entity in the `update` `forEach` is fatal: it
collides with the player after its move and is a pursuer. -/
def fatalHit (p : Player) (dt : ℚ) (e : GEntity) : Bool :=
  hitsPlayer p dt e && (e.kind = EntKind.enemy)

/-- What one `procEntity` step does to the observables: one `onGameOver`
call exactly when the hit is fatal; the state becomes `GAME_OVER`
exactly when it already was or the hit is fatal; `maxEnergy` is
untouched; and energy stays within `[0, maxEnergy]`. -/
theorem procEntity_facts (m : Bool) (p : Player) (dt : ℚ) (pr' : ℕ → PRand)
    (a : EntAcc) (e : GEntity) :
    ((procEntity m p.x p.y p.radius dt pr' a e).goCalls.length
        = a.goCalls.length + (if fatalHit p dt e = true then 1 else 0)) ∧
    ((procEntity m p.x p.y p.radius dt pr' a e).state = GameState.gameOver
        ↔ (a.state = GameState.gameOver ∨ fatalHit p dt e = true)) ∧
    ((procEntity m p.x p.y p.radius dt pr' a e).stats.maxEnergy
        = a.stats.maxEnergy) ∧
    (0 ≤ a.stats.energy → a.stats.energy ≤ a.stats.maxEnergy →
        0 ≤ (procEntity m p.x p.y p.radius dt pr' a e).stats.energy ∧
        (procEntity m p.x p.y p.radius dt pr' a e).stats.energy
            ≤ a.stats.maxEnergy) := by
  have hfat : fatalHit p dt e
      = (distLt ((e.update dt).x - p.x) ((e.update dt).y - p.y)
          ((e.update dt).radius + p.radius) && decide ((e.update dt).kind = EntKind.enemy)) := by
    unfold fatalHit hitsPlayer collidesWith
    rfl
  by_cases hc : distLt ((e.update dt).x - p.x) ((e.update dt).y - p.y)
      ((e.update dt).radius + p.radius) = true
  · by_cases hk : (e.update dt).kind = EntKind.enemy
    · have hf : fatalHit p dt e = true := by rw [hfat, hc, decide_eq_true hk]; rfl
      refine ⟨?_, ?_, ?_, ?_⟩ <;>
        simp [procEntity, hc, hk, hf]
      tauto
    · have hf : fatalHit p dt e = false := by
        rw [hfat, hc]
        simp [hk]
      by_cases ho : (e.update dt).kind = EntKind.orb
      · refine ⟨?_, ?_, ?_, ?_⟩
        · simp [procEntity, hc, hk, ho, hf]
        · simp [procEntity, hc, hk, ho, hf]
        · simp [procEntity, hc, hk, ho]
        · intro h0 h1
          have hmaxnn : (0 : ℚ) ≤ a.stats.maxEnergy := le_trans h0 h1
          constructor
          · have hgoal : (0 : ℚ) ≤ min (a.stats.energy + 10) a.stats.maxEnergy :=
              le_min (by linarith) hmaxnn
            simpa [procEntity, hc, hk, ho] using hgoal
          · have hgoal : min (a.stats.energy + 10) a.stats.maxEnergy
                ≤ a.stats.maxEnergy := min_le_right _ _
            simpa [procEntity, hc, hk, ho] using hgoal
      · refine ⟨?_, ?_, ?_, ?_⟩ <;> simp [procEntity, hc, hk, ho, hf]
        intro h0 h1
        exact ⟨h0, h1⟩
  · have hf : fatalHit p dt e = false := by
      rw [hfat]
      simp [Bool.eq_false_iff.mpr hc]
    refine ⟨?_, ?_, ?_, ?_⟩ <;> simp [procEntity, hc, hf]
    intro h0 h1
    exact ⟨h0, h1⟩

/-- The entity `forEach`, folded: the number of `onGameOver` calls grows
by one per fatal hit in the list; the state ends `GAME_OVER` exactly
when it started there or some hit was fatal; `maxEnergy` is untouched;
energy stays within `[0, maxEnergy]`. -/
theorem procFold_facts (m : Bool) (p : Player) (dt : ℚ) (pr' : ℕ → PRand)
    (l : List GEntity) : ∀ a : EntAcc,
    ((l.foldl (procEntity m p.x p.y p.radius dt pr') a).goCalls.length
        = a.goCalls.length + l.countP (fatalHit p dt)) ∧
    ((l.foldl (procEntity m p.x p.y p.radius dt pr') a).state = GameState.gameOver
        ↔ (a.state = GameState.gameOver ∨ l.any (fatalHit p dt) = true)) ∧
    ((l.foldl (procEntity m p.x p.y p.radius dt pr') a).stats.maxEnergy
        = a.stats.maxEnergy) ∧
    (0 ≤ a.stats.energy → a.stats.energy ≤ a.stats.maxEnergy →
        0 ≤ (l.foldl (procEntity m p.x p.y p.radius dt pr') a).stats.energy ∧
        (l.foldl (procEntity m p.x p.y p.radius dt pr') a).stats.energy
            ≤ a.stats.maxEnergy) := by
  induction l with
  | nil =>
    intro a
    refine ⟨by simp, by simp, rfl, fun h0 h1 => ⟨h0, h1⟩⟩
  | cons e l ih =>
    intro a
    obtain ⟨s1, s2, s3, s4⟩ := procEntity_facts m p dt pr' a e
    obtain ⟨i1, i2, i3, i4⟩ := ih (procEntity m p.x p.y p.radius dt pr' a e)
    simp only [List.foldl_cons, List.countP_cons, List.any_cons]
    refine ⟨?_, ?_, ?_, ?_⟩
    · rw [i1, s1]
      by_cases hf : fatalHit p dt e = true <;> simp [hf] <;> omega
    · rw [i2, s2]
      by_cases hf : fatalHit p dt e = true <;> simp [hf] <;> tauto
    · rw [i3, s3]
    · intro h0 h1
      obtain ⟨e0, e1⟩ := s4 h0 h1
      obtain ⟨f0, f1⟩ := i4 e0 (by rw [s3]; exact e1)
      exact ⟨f0, le_trans f1 s3.le⟩

/-- With a player present, the engine `update` ends in the state computed
by the entity pass. -/
theorem update_engine_state (g : Engine) (p : Player) (dt : ℚ) (fr : FrameRand)
    (hp : g.player = some p) :
    (GameEngine.update g dt fr).engine.state = (entityPass g p dt fr).state := by
  unfold GameEngine.update
  rw [hp]

/-- With a player present, the `onGameOver` calls of an `update` are those
accumulated by the entity pass. -/
theorem update_gameOverCalls (g : Engine) (p : Player) (dt : ℚ) (fr : FrameRand)
    (hp : g.player = some p) :
    (GameEngine.update g dt fr).gameOverCalls = (entityPass g p dt fr).goCalls := by
  unfold GameEngine.update
  rw [hp]

/-- With a player present, the stats an `update` leaves behind: the entity
pass's stats with energy decayed (floored at `0`) and the level
recomputed. -/
theorem update_engine_stats (g : Engine) (p : Player) (dt : ℚ) (fr : FrameRand)
    (hp : g.player = some p) :
    (GameEngine.update g dt fr).engine.stats
      = { (entityPass g p dt fr).stats with
          energy := max 0 ((entityPass g p dt fr).stats.energy - 2 * dt),
          level := levelOf (entityPass g p dt fr).stats.score } := by
  unfold GameEngine.update
  rw [hp]

/-- With a player present, the entity list an `update` leaves behind:
the processed entities, minus those marked for deletion or out of the
`100`-pixel margin around the viewport. -/
theorem update_engine_entities (g : Engine) (p : Player) (dt : ℚ) (fr : FrameRand)
    (hp : g.player = some p) :
    (GameEngine.update g dt fr).engine.entities
      = (entityPass g p dt fr).done.filter (fun e =>
          !e.markedForDeletion &&
          -100 < e.x && e.x < g.width + 100 && -100 < e.y && e.y < g.height + 100) := by
  unfold GameEngine.update
  rw [hp]

/-- With a player present, the particle list an `update` leaves behind:
old particles plus this frame's explosion particles, all updated, minus
the expired. -/
theorem update_engine_particles (g : Engine) (p : Player) (dt : ℚ) (fr : FrameRand)
    (hp : g.player = some p) :
    (GameEngine.update g dt fr).engine.particles
      = ((g.particles ++ (entityPass g p dt fr).newParticles).map
          (fun q => q.update dt)).filter (fun q => !q.markedForDeletion) := by
  unfold GameEngine.update
  rw [hp]

/-! ## C1: pursuer collision ends the game -/

/-- A playing engine with two pursuers overlapping the player in the
same frame. -/
def c1Engine : Engine :=
  { cEngine with entities := [cEnemyAt 100 100, cEnemyAt 100 100] }

/-- C1 counterexample: with two pursuers colliding with the player in
the same frame, one `update` call does transition to `GAME_OVER` but
invokes the game-over callback twice, not exactly once. -/
theorem pursuer_collision_counterexample :
    (GameEngine.update c1Engine 0 cFR).engine.state = GameState.gameOver ∧
    (GameEngine.update c1Engine 0 cFR).gameOverCalls = [0, 0] ∧
    (GameEngine.update c1Engine 0 cFR).gameOverCalls.length = 2 := by
  with_unfolding_all decide

/-- C1 (amended): if during one `update` call some post-move pursuer is
within collision range of the player, the call ends with the engine in
`GAME_OVER`, and the game-over callback is invoked once per colliding
pursuer — `n` times when `n` pursuers collide in the same frame, not
exactly once. -/
theorem pursuer_collision_game_over (g : Engine) (p : Player) (dt : ℚ)
    (fr : FrameRand) (hp : g.player = some p)
    (hfatal : (entitiesAfterSpawn g p dt fr).any (fatalHit p dt) = true) :
    (GameEngine.update g dt fr).engine.state = GameState.gameOver ∧
    (GameEngine.update g dt fr).gameOverCalls.length
        = (entitiesAfterSpawn g p dt fr).countP (fatalHit p dt) := by
  obtain ⟨hlen, hstate, -, -⟩ := procFold_facts g.isMobile p dt fr.prand
    (entitiesAfterSpawn g p dt fr) (initAcc g)
  constructor
  · rw [update_engine_state g p dt fr hp]
    exact hstate.mpr (Or.inr hfatal)
  · rw [update_gameOverCalls g p dt fr hp]
    simpa [initAcc] using hlen

/-- C1 witness: a single colliding pursuer — the state transitions to
`GAME_OVER` and the callback count equals the colliding-pursuer count
(one). -/
theorem pursuer_collision_game_over_witness :
    (GameEngine.update { cEngine with entities := [cEnemyAt 100 100] } 0 cFR).engine.state
        = GameState.gameOver ∧
    (GameEngine.update { cEngine with entities := [cEnemyAt 100 100] } 0 cFR).gameOverCalls.length
        = (entitiesAfterSpawn { cEngine with entities := [cEnemyAt 100 100] } cPlayer 0 cFR).countP
            (fatalHit cPlayer 0) :=
  pursuer_collision_game_over { cEngine with entities := [cEnemyAt 100 100] }
    cPlayer 0 cFR rfl (by with_unfolding_all decide)

/-! ## C4: pickup collision effects -/

/-- The particle burst a pickup collision spawns: a `5`-particle
explosion (halved, rounded up, on mobile) at the pickup's post-move
position, drawn from the start of the frame's particle-randomness
stream. -/
def pickupBurst (g : Engine) (e : GEntity) (dt : ℚ) (fr : FrameRand) : List Particle :=
  createExplosion g.isMobile ((e.update dt).x) ((e.update dt).y) orbColor 5 fr.prand 0

/-- An engine for the C4 counterexample: a mobile engine, energy `100`
of `200`, one pickup overlapping the player, spawn timer far from
firing. -/
def c4Engine : Engine :=
  { width := 800, height := 600, state := GameState.playing,
    stats := { score := 0, energy := 100, maxEnergy := 200, level := 1 },
    player := some cPlayer, entities := [cOrbAt 100 100], particles := [],
    spawnTimer := -10, isMobile := true }

/-- C4 counterexample: a pickup collision during `update(1)` on a mobile
engine leaves energy `108`, not `min(100 + 10, 200) = 110` (the
end-of-frame decay `2·dt` also applies), and spawns `3` particles, not
`5` (mobile halves particle counts). -/
theorem pickup_collision_counterexample :
    hitsPlayer cPlayer 1 (cOrbAt 100 100) = true ∧
    (GameEngine.update c4Engine 1 cFR).engine.stats.energy = 108 ∧
    min (c4Engine.stats.energy + 10) c4Engine.stats.maxEnergy = 110 ∧
    (GameEngine.update c4Engine 1 cFR).engine.particles.length = 3 ∧
    (GameEngine.update c4Engine 1 cFR).engine.entities = [] ∧
    (GameEngine.update c4Engine 1 cFR).engine.stats.score = 10 := by
  with_unfolding_all decide

/-- C4 (amended): when the engine's only entity is a pickup that
collides with the player after its move (and no spawn fires), one
`update` call marks the pickup and removes it in the same cleanup,
raises the score by exactly `10`, sets energy to
`min(energy + 10, maxEnergy)` at collision time — so the post-call
value, after the end-of-frame decay, is
`max(0, min(energy + 10, maxEnergy) − 2·dt)` — and spawns a decorative
burst of `5` particles (`3` on mobile, where counts are halved) at the
pickup's location. -/
theorem pickup_collision_effects (g : Engine) (p : Player) (e : GEntity)
    (dt : ℚ) (fr : FrameRand)
    (hp : g.player = some p) (hent : g.entities = [e])
    (hk : e.kind = EntKind.orb) (hhit : hitsPlayer p dt e = true)
    (hns : ¬ spawnFires g dt) :
    (GameEngine.update g dt fr).engine.entities = [] ∧
    (GameEngine.update g dt fr).engine.stats.score = g.stats.score + 10 ∧
    (GameEngine.update g dt fr).engine.stats.energy
        = max 0 (min (g.stats.energy + 10) g.stats.maxEnergy - 2 * dt) ∧
    (pickupBurst g e dt fr).length = (if g.isMobile then 3 else 5) ∧
    (∀ q ∈ pickupBurst g e dt fr,
        q.x = (e.update dt).x ∧ q.y = (e.update dt).y ∧ q.life = 1 ∧
        q.markedForDeletion = false) ∧
    (GameEngine.update g dt fr).engine.particles
        = ((g.particles ++ pickupBurst g e dt fr).map (fun q => q.update dt)).filter
            (fun q => !q.markedForDeletion) := by
  have hknotenemy : ¬ (e.update dt).kind = EntKind.enemy := by
    rw [GEntity.update_kind, hk]
    intro hcontr
    exact EntKind.noConfusion hcontr
  have hkorb : (e.update dt).kind = EntKind.orb := by
    rw [GEntity.update_kind, hk]
  have hc : distLt ((e.update dt).x - p.x) ((e.update dt).y - p.y)
      ((e.update dt).radius + p.radius) = true := hhit
  have hpass : entityPass g p dt fr
      = procEntity g.isMobile p.x p.y p.radius dt fr.prand (initAcc g) e := by
    unfold entityPass entitiesAfterSpawn
    rw [if_neg hns, hent]
    rfl
  have hproc : procEntity g.isMobile p.x p.y p.radius dt fr.prand (initAcc g) e
      = { done := [{ e.update dt with markedForDeletion := true }],
          stats := { g.stats with score := g.stats.score + 10, energy := min (g.stats.energy + 10) g.stats.maxEnergy },
          state := g.state,
          newParticles := pickupBurst g e dt fr,
          goCalls := [],
          pIdx := (pickupBurst g e dt fr).length } := by
    unfold procEntity
    rw [if_pos hc, if_neg hknotenemy, if_pos hkorb]
    simp [initAcc, pickupBurst]
  refine ⟨?_, ?_, ?_, ?_, ?_, ?_⟩
  · rw [update_engine_entities g p dt fr hp, hpass, hproc]
    simp
  · rw [update_engine_stats g p dt fr hp, hpass, hproc]
  · rw [update_engine_stats g p dt fr hp, hpass, hproc]
  · rw [pickupBurst, createExplosion_length]
  · intro q hq
    obtain ⟨h1, h2, h3, h4, -⟩ := createExplosion_mem g.isMobile
      ((e.update dt).x) ((e.update dt).y) orbColor 5 fr.prand 0 q hq
    exact ⟨h1, h2, h3, h4⟩
  · rw [update_engine_particles g p dt fr hp, hpass, hproc]

/-- C4 witness: the amended claim evaluated on a desktop engine with
energy `100` of `200` and one overlapping pickup, `dt = 1`. -/
theorem pickup_collision_effects_witness :
    (GameEngine.update { c4Engine with isMobile := false } 1 cFR).engine.entities = [] ∧
    (GameEngine.update { c4Engine with isMobile := false } 1 cFR).engine.stats.score
        = { c4Engine with isMobile := false }.stats.score + 10 ∧
    (GameEngine.update { c4Engine with isMobile := false } 1 cFR).engine.stats.energy
        = max 0 (min ({ c4Engine with isMobile := false }.stats.energy + 10)
            { c4Engine with isMobile := false }.stats.maxEnergy - 2 * 1) ∧
    (pickupBurst { c4Engine with isMobile := false } (cOrbAt 100 100) 1 cFR).length
        = (if { c4Engine with isMobile := false }.isMobile then 3 else 5) ∧
    (∀ q ∈ pickupBurst { c4Engine with isMobile := false } (cOrbAt 100 100) 1 cFR,
        q.x = ((cOrbAt 100 100).update 1).x ∧ q.y = ((cOrbAt 100 100).update 1).y ∧
        q.life = 1 ∧ q.markedForDeletion = false) ∧
    (GameEngine.update { c4Engine with isMobile := false } 1 cFR).engine.particles
        = (({ c4Engine with isMobile := false }.particles
            ++ pickupBurst { c4Engine with isMobile := false } (cOrbAt 100 100) 1 cFR).map
              (fun q => q.update 1)).filter (fun q => !q.markedForDeletion) :=
  pickup_collision_effects { c4Engine with isMobile := false } cPlayer
    (cOrbAt 100 100) 1 cFR rfl rfl rfl (by with_unfolding_all decide)
    (by with_unfolding_all decide)

/-! ## C5: energy stays in [0, maxEnergy] -/

/-- An operation the host can drive the engine with: one frame
`update(dt)` (with its randomness), or one `triggerHypernova` (with its
randomness). -/
inductive Op where
  | frame (dt : ℚ) (fr : FrameRand)
  | nova (pr : ℕ → PRand)

/-- Validity of an operation, as the claim assumes: a frame's `dt` is
nonnegative (it is a wall-clock difference); a hypernova has no
precondition. -/
def Op.valid : Op → Prop
  | Op.frame dt _ => 0 ≤ dt
  | Op.nova _ => True

/-- Applying one operation to the engine.  A hypernova that throws (the
`Except.error` case, null player with enough energy) leaves the engine
in the partially mutated state the exception abandoned it in. -/
def Engine.step (g : Engine) : Op → Engine
  | Op.frame dt fr => (GameEngine.update g dt fr).engine
  | Op.nova pr =>
      match GameEngine.triggerHypernova g pr with
      | Except.ok g' => g'
      | Except.error g' => g'

/-- Running a sequence of operations left to right. -/
def Engine.run (g : Engine) (ops : List Op) : Engine := ops.foldl Engine.step g

/-- One valid operation preserves `0 ≤ energy ≤ maxEnergy`. -/
theorem step_preserves_energy (g : Engine) (o : Op) (hv : o.valid)
    (h0 : 0 ≤ g.stats.energy) (h1 : g.stats.energy ≤ g.stats.maxEnergy) :
    0 ≤ (g.step o).stats.energy ∧
    (g.step o).stats.energy ≤ (g.step o).stats.maxEnergy := by
  cases o with
  | frame dt fr =>
    have hdt : 0 ≤ dt := hv
    cases hp : g.player with
    | none =>
      rw [Engine.step, update_null_player g dt fr hp]
      exact ⟨h0, h1⟩
    | some p =>
      obtain ⟨-, -, hmax, hen⟩ := procFold_facts g.isMobile p dt fr.prand
        (entitiesAfterSpawn g p dt fr) (initAcc g)
      have hmax' : (entityPass g p dt fr).stats.maxEnergy = g.stats.maxEnergy := hmax
      obtain ⟨e0, e1⟩ := hen h0 h1
      have e1' : (entityPass g p dt fr).stats.energy ≤ g.stats.maxEnergy := e1
      rw [Engine.step, update_engine_stats g p dt fr hp]
      constructor
      · exact le_max_left 0 _
      · have : max 0 ((entityPass g p dt fr).stats.energy - 2 * dt)
            ≤ g.stats.maxEnergy := by
          apply max_le (le_trans h0 h1)
          linarith
        simpa [hmax'] using this
  | nova pr =>
    rw [Engine.step]
    unfold GameEngine.triggerHypernova
    by_cases he : 30 ≤ g.stats.energy
    · rw [if_pos he]
      cases hp : g.player with
      | none =>
        constructor
        · simp only []
          linarith
        · simp only []
          linarith
      | some p =>
        constructor
        · simp only []
          linarith
        · simp only []
          linarith
    · rw [if_neg he]
      exact ⟨h0, h1⟩

/-- C5: starting from any engine whose energy lies in `[0, maxEnergy]`,
the energy still lies in `[0, maxEnergy]` after any sequence of valid
operations — `update` calls with `dt ≥ 0` (pickup gain and decay
included) and `triggerHypernova` calls. -/
theorem energy_always_clamped (g : Engine) (ops : List Op)
    (h0 : 0 ≤ g.stats.energy) (h1 : g.stats.energy ≤ g.stats.maxEnergy)
    (hops : ∀ o ∈ ops, o.valid) :
    0 ≤ (Engine.run g ops).stats.energy ∧
    (Engine.run g ops).stats.energy ≤ (Engine.run g ops).stats.maxEnergy := by
  induction ops generalizing g with
  | nil => exact ⟨h0, h1⟩
  | cons o ops ih =>
    obtain ⟨s0, s1⟩ := step_preserves_energy g o
      (hops o (List.mem_cons_self o ops)) h0 h1
    exact ih (g.step o) s0 s1 (fun o' ho' => hops o' (List.mem_cons_of_mem o ho'))

/-- C5 witness: a concrete three-operation run — a frame, a hypernova,
another frame — starting from full energy. -/
theorem energy_always_clamped_witness :
    0 ≤ (Engine.run cEngine
        [Op.frame 1 cFR, Op.nova (fun _ => zeroDraw), Op.frame 0 cFR]).stats.energy ∧
    (Engine.run cEngine
        [Op.frame 1 cFR, Op.nova (fun _ => zeroDraw), Op.frame 0 cFR]).stats.energy
      ≤ (Engine.run cEngine
        [Op.frame 1 cFR, Op.nova (fun _ => zeroDraw), Op.frame 0 cFR]).stats.maxEnergy :=
  energy_always_clamped cEngine
    [Op.frame 1 cFR, Op.nova (fun _ => zeroDraw), Op.frame 0 cFR]
    (by norm_num [cEngine, cStats]) (by norm_num [cEngine, cStats])
    (by
      intro o ho
      simp only [List.mem_cons, List.not_mem_nil, or_false] at ho
      rcases ho with rfl | rfl | rfl
      · exact (by norm_num : (0:ℚ) ≤ 1)
      · exact trivial
      · exact le_refl 0)
